import Mathlib

/-!
Shallow embedding of the Miro-notes-extender annotation engine.

Sources embedded here:
* `src/src/app.jsx` — panel app: `checkPayloadSize`, `checkIsEditor`,
  `debounce`, `loadMetadata`, `saveMetadata`, `handleSelectionUpdate`,
  and the section/note operations (`deleteSection`, `moveSection`,
  `deleteNote`, `moveNote`, `moveNoteToSection`).
* `src/src/models.js` — data models (`createSection`, `createNote`,
  `createMetadataStructure`, `sortSections`, `sortNotes`).
* `src/unnamed/part_000` — indicator lifecycle manager (`isEditor`,
  `calculateIndicatorPosition`, `createIndicator`, `deleteIndicator`,
  `syncIndicator`).

The host board (Miro SDK) is modelled as explicit state: a per-item
metadata store, a read-failure map (a thrown `getMetadata`), a write
success flag (a thrown `setMetadata`), the current-user lookup result,
and the set of widgets on the canvas.  Asynchronous host calls are
single-threaded in the source's cooperative model, so each handler is
embedded as a pure state-transition function.  Effectful id generation
(`generateId`) and clock reads (`Date.now()`) are passed in as explicit
parameters.
-/

set_option maxRecDepth 20000

namespace Annotate

/-- A note, as produced by `createNote` in `models.js`. -/
structure Note where
  id : String
  heading : String
  body : String
  itemId : String
  itemName : String
  itemType : String
  sectionId : String
  order : Int
  createdAt : Nat
  updatedAt : Nat
  authorId : Option String
  deriving DecidableEq, Repr

/-- A section, as produced by `createSection` in `models.js`. -/
structure Section where
  id : String
  name : String
  order : Int
  notes : List Note
  createdAt : Nat
  updatedAt : Nat
  deriving DecidableEq, Repr

/-- The value stored under the `"annotate"` sub-key of the app's
metadata namespace (built inside `saveMetadata`, `app.jsx`). -/
structure AnnotateMeta where
  schemaVersion : String
  sections : List Section
  updatedAt : Nat
  authorId : Option String
  deriving DecidableEq, Repr

/-- The whole per-item metadata namespace object: the `"annotate"`
sub-key, the optional `indicatorWidgetId` sibling key, and any other
keys (kept opaque), so that the read-merge-write discipline is
observable. -/
structure NsMeta where
  annotate : Option AnnotateMeta
  indicatorWidgetId : Option String
  other : List (String × String)
  deriving DecidableEq, Repr

/-- The empty namespace object `\x7b\x7d`. -/
def NsMeta.empty : NsMeta := ⟨none, none, []⟩

/-- Bounding box of a board item (`item.bounds`).  Coordinates are
rationals, standing in for JS numbers on the operations used here. -/
structure Bounds where
  x : Rat
  y : Rat
  width : Rat
  height : Rat
  deriving DecidableEq, Repr

/-- A board item, as consumed by the handlers: its id, creator, and
optional bounding box. -/
structure Item where
  id : String
  createdBy : Option String
  bounds : Option Bounds
  deriving DecidableEq, Repr

/-- Truthiness of a JS `string | null` value (`null` and `""` are
falsy). -/
def jsTruthyStr : Option String → Bool
  | none => false
  | some s => s ≠ ""

/-- JS `a || b` on strings (first operand if truthy, else second). -/
def jsOrStr (a b : String) : String := if a = "" then b else a

/-- `Math.round (a / b)` for natural `a`, positive natural `b`
(`Math.round x = ⌊x + 1/2⌋` for non-negative `x`). -/
def jsRoundDiv (a b : Nat) : Nat := (2 * a + b) / (2 * b)

/-- Number of bytes of a character in UTF-8, as counted by
`new Blob([s]).size`. -/
def utf8CharLen (c : Char) : Nat :=
  if c.val < 0x80 then 1
  else if c.val < 0x800 then 2
  else if c.val < 0x10000 then 3
  else 4

/-- UTF-8 byte length of a string (`new Blob([s]).size`). -/
def utf8ByteLen (s : String) : Nat := (s.data.map utf8CharLen).sum

/-- Whether `pat` occurs as a contiguous run inside the character
list. -/
def listContainsSub (pat : List Char) : List Char → Bool
  | [] => pat.isPrefixOf []
  | c :: t => pat.isPrefixOf (c :: t) || listContainsSub pat t

/-- Whether `pat` occurs as a substring of `s`. -/
def strContains (s pat : String) : Bool := listContainsSub pat.data s.data

/-- `JSON.stringify` escaping of one character inside a string
literal. -/
def jsonEscapeChar (c : Char) : String :=
  if c = '"' then "\\\""
  else if c = '\\' then "\\\\"
  else if c = '\x08' then "\\b"
  else if c = '\x09' then "\\t"
  else if c = '\x0a' then "\\n"
  else if c = '\x0c' then "\\f"
  else if c = '\x0d' then "\\r"
  else if c.val < 0x20 then
    "\\u00" ++ String.mk [Nat.digitChar (c.val.toNat / 16), Nat.digitChar (c.val.toNat % 16)]
  else String.mk [c]

/-- `JSON.stringify` rendering of a string value, quotes included. -/
def jsonStr (s : String) : String :=
  "\"" ++ String.join (s.data.map jsonEscapeChar) ++ "\""

/-- `JSON.stringify` rendering of a `string | null` value. -/
def jsonStrOpt : Option String → String
  | none => "null"
  | some s => jsonStr s

/-- `JSON.stringify` rendering of an integer. -/
def jsonInt (i : Int) : String := toString i

/-- `JSON.stringify` rendering of a list, given a renderer for the
elements. -/
def jsonArr (f : α → String) (l : List α) : String :=
  "[" ++ String.intercalate "," (l.map f) ++ "]"

/-- `JSON.stringify` of a note object, keys in the insertion order of
`createNote` (`models.js`). -/
def stringifyNote (n : Note) : String :=
  "\x7b\"id\":" ++ jsonStr n.id ++
  ",\"heading\":" ++ jsonStr n.heading ++
  ",\"body\":" ++ jsonStr n.body ++
  ",\"itemId\":" ++ jsonStr n.itemId ++
  ",\"itemName\":" ++ jsonStr n.itemName ++
  ",\"itemType\":" ++ jsonStr n.itemType ++
  ",\"sectionId\":" ++ jsonStr n.sectionId ++
  ",\"order\":" ++ jsonInt n.order ++
  ",\"createdAt\":" ++ jsonInt n.createdAt ++
  ",\"updatedAt\":" ++ jsonInt n.updatedAt ++
  ",\"authorId\":" ++ jsonStrOpt n.authorId ++ "\x7d"

/-- `JSON.stringify` of a section object, keys in the insertion order
of `createSection` (`models.js`). -/
def stringifySection (s : Section) : String :=
  "\x7b\"id\":" ++ jsonStr s.id ++
  ",\"name\":" ++ jsonStr s.name ++
  ",\"order\":" ++ jsonInt s.order ++
  ",\"notes\":" ++ jsonArr stringifyNote s.notes ++
  ",\"createdAt\":" ++ jsonInt s.createdAt ++
  ",\"updatedAt\":" ++ jsonInt s.updatedAt ++ "\x7d"

/-- `JSON.stringify` of the metadata object built in `saveMetadata`,
keys in its insertion order. -/
def stringifyMeta (m : AnnotateMeta) : String :=
  "\x7b\"schemaVersion\":" ++ jsonStr m.schemaVersion ++
  ",\"sections\":" ++ jsonArr stringifySection m.sections ++
  ",\"updatedAt\":" ++ jsonInt m.updatedAt ++
  ",\"authorId\":" ++ jsonStrOpt m.authorId ++ "\x7d"

/-- Modelled from the spec: `src/config.js` is not among the provided
sources; the spec fixes the serialized-payload ceiling at 6144 bytes. -/
def MAX_PAYLOAD_SIZE : Nat := 6144

/-- Modelled from the spec: `src/config.js` is not among the provided
sources; the spec fixes the autosave quiet window at 400 ms. -/
def AUTOSAVE_DEBOUNCE_MS : Nat := 400

/-- Modelled from the spec: `src/config.js` is not among the provided
sources; the spec fixes the selection debounce window at 150 ms. -/
def SELECTION_DEBOUNCE_MS : Nat := 150

/-- Modelled from the spec: `src/config.js` is not among the provided
sources; the spec fixes the metadata sub-key at `"annotate"`. -/
def METADATA_KEY : String := "annotate"

/-- Modelled from the spec: `src/config.js` is not among the provided
sources; the spec and `models.js` fix the schema tag at `"1.0.0"`. -/
def SCHEMA_VERSION : String := "1.0.0"

/-- Result of `checkPayloadSize` (`app.jsx`). -/
structure SizeCheck where
  isValid : Bool
  size : Nat
  maxSize : Nat
  deriving DecidableEq, Repr

/-- `checkPayloadSize` (`app.jsx`): JSON-stringify the metadata, count
encoded bytes, compare with the ceiling. -/
def checkPayloadSize (metadata : AnnotateMeta) : SizeCheck :=
  let jsonString := stringifyMeta metadata
  let sizeInBytes := utf8ByteLen jsonString
  ⟨sizeInBytes ≤ MAX_PAYLOAD_SIZE, sizeInBytes, MAX_PAYLOAD_SIZE⟩

/-- The error message set by `saveMetadata` when the payload is too
large (`app.jsx` lines 220-226). -/
def tooLargeMsg (size maxSize : Nat) : String :=
  "Data too large (" ++ toString (jsRoundDiv size 1024) ++ "KB / " ++
  toString (jsRoundDiv maxSize 1024) ++ "KB). Please reduce content."

/-- `createSection` (`models.js`).  `generateId` and `Date.now()` are
effectful in the source and passed in explicitly here. -/
def createSection (freshId : String) (now : Nat) (name : String) (order : Int) : Section :=
  { id := freshId
    name := jsOrStr name "New Section"
    order := order
    notes := []
    createdAt := now
    updatedAt := now }

/-- `createNote` (`models.js`). -/
def createNote (freshId : String) (now : Nat) (itemId itemName itemType sectionId : String)
    (heading body : String) (authorId : Option String) (order : Int) : Note :=
  { id := freshId
    heading := jsOrStr heading (jsOrStr itemName (jsOrStr itemType "Untitled"))
    body := body
    itemId := itemId
    itemName := jsOrStr itemName (jsOrStr itemType "Untitled")
    itemType := itemType
    sectionId := sectionId
    order := order
    createdAt := now
    updatedAt := now
    authorId := authorId }

/-- `createMetadataStructure` (`models.js`): the default metadata with
one "General" section. -/
def createMetadataStructure (freshId : String) (now : Nat) (authorId : Option String) :
    AnnotateMeta :=
  { schemaVersion := "1.0.0"
    sections := [createSection freshId now "General" 0]
    updatedAt := now
    authorId := authorId }

/-- `sortSections` (`models.js`): stable sort ascending by `order`. -/
def sortSections (sections : List Section) : List Section :=
  sections.insertionSort (fun a b => a.order ≤ b.order)

/-- `sortNotes` (`models.js`): stable sort ascending by `order`. -/
def sortNotes (notes : List Note) : List Note :=
  notes.insertionSort (fun a b => a.order ≤ b.order)

/-- The host board state: the authoritative per-item metadata store, a
map of items whose `getMetadata` currently throws, whether
`setMetadata` succeeds, the `getUserInfo` outcome (`none` = the lookup
throws; `some v` = it resolves with id `v`, which may be JS `null`),
the widgets on the canvas, and the id `createText` would assign next. -/
structure Host where
  store : String → Option NsMeta
  readFails : String → Bool
  writeOk : Bool
  userInfo : Option (Option String)
  canvas : List String
  freshWidgetId : String

/-- `item.getMetadata(APP_ID)` outcome: `none` when the call throws,
`some v` when it resolves with `v` (possibly JS `null`). -/
def Host.getMeta (h : Host) (itemId : String) : Option (Option NsMeta) :=
  if h.readFails itemId then none else some (h.store itemId)

/-- `checkIsEditor` (`app.jsx`): `false` for a missing item or a failed
user lookup, else the JS value `currentUserId && createdBy === currentUserId`
coerced to a boolean. -/
def checkIsEditor (h : Host) (item : Option Item) : Bool :=
  match item with
  | none => false
  | some it =>
    match h.userInfo with
    | none => false
    | some currentUserId =>
      jsTruthyStr currentUserId && it.createdBy = currentUserId

/-- `isEditor` (`src/unnamed/part_000`): same logic as `checkIsEditor`. -/
def isEditor (h : Host) (item : Option Item) : Bool :=
  match item with
  | none => false
  | some it =>
    match h.userInfo with
    | none => false
    | some currentUserId =>
      jsTruthyStr currentUserId && it.createdBy = currentUserId

/-- Lookup in an association-list model of a JS `Map`. -/
def mapGet (m : List (String × α)) (k : String) : Option α :=
  match m with
  | [] => none
  | (k', v) :: rest => if k' = k then some v else mapGet rest k

/-- `Map.set`: replace the binding for `k` (extensionally; the entry is
moved to the front, which `mapGet` cannot observe). -/
def mapSet (m : List (String × α)) (k : String) (v : α) : List (String × α) :=
  (k, v) :: m.filter (fun p => p.1 ≠ k)

/-- The React state of the `App` component (`app.jsx`), restricted to
the fields the synchronization engine reads or writes.  `cache` is
`metadataCacheRef` (each entry holds the `sections` of the cached
record) and `editingItemIdRef` is the "currently editing" reference. -/
structure AppState where
  selectedItem : Option Item
  selectedItemId : Option String
  sections : List Section
  activeNoteId : Option String
  activeSectionId : Option String
  isEditor : Bool
  currentUserId : Option String
  selectionCount : Nat
  editingNoteId : Option String
  isDirty : Bool
  isLoading : Bool
  isSaving : Bool
  error : Option String
  currentView : String
  expandedSections : List String
  cache : List (String × List Section)
  editingItemIdRef : Option String
  deriving DecidableEq, Repr

/-- Result of running `loadMetadata`: the new component state and
whether a host `getMetadata` round trip was performed. -/
structure LoadOut where
  state : AppState
  fetched : Bool
  deriving DecidableEq, Repr

/-- `loadMetadata` (`app.jsx`): clear on a null item; otherwise set the
editing reference, serve a cache hit without a host fetch, and on a
miss fetch, sort, publish and cache the result (or the default
structure on first install).  `freshId`/`now` feed the effectful
`generateId`/`Date.now()` of the first-install path. -/
def loadMetadata (freshId : String) (now : Nat) (h : Host) (st : AppState)
    (item : Option Item) : LoadOut :=
  match item with
  | none =>
    ⟨{ st with sections := [], activeNoteId := none, activeSectionId := none,
               editingItemIdRef := none }, false⟩
  | some it =>
    let itemId := it.id
    let st := { st with editingItemIdRef := some itemId }
    match mapGet st.cache itemId with
    | some cachedSections =>
      let st := { st with sections := cachedSections }
      let st :=
        match cachedSections with
        | [] => st
        | s :: _ => { st with expandedSections := [s.id] }
      ⟨st, false⟩
    | none =>
      let st := { st with isLoading := true, error := none }
      match h.getMeta itemId with
      | none =>
        ⟨{ st with error := some "Failed to load annotations", isLoading := false }, true⟩
      | some raw =>
        let annotateData := raw.bind (fun ns => ns.annotate)
        match annotateData with
        | some a =>
          let loadedSections :=
            (sortSections a.sections).map (fun s => { s with notes := sortNotes s.notes })
          let st := { st with sections := loadedSections }
          let st :=
            match loadedSections with
            | [] => st
            | s :: _ => { st with expandedSections := [s.id] }
          ⟨{ st with cache := mapSet st.cache itemId loadedSections,
                     isLoading := false }, true⟩
        | none =>
          let defaultMetadata := createMetadataStructure freshId now st.currentUserId
          let st := { st with sections := defaultMetadata.sections }
          let st :=
            match defaultMetadata.sections with
            | [] => st
            | s :: _ => { st with expandedSections := [s.id] }
          ⟨{ st with cache := mapSet st.cache itemId defaultMetadata.sections,
                     isLoading := false }, true⟩

/-- The metadata record `saveMetadata` builds before writing
(`app.jsx` lines 210-215). -/
def buildMetadata (now : Nat) (st : AppState) (sectionsToSave : Option (List Section)) :
    AnnotateMeta :=
  { schemaVersion := SCHEMA_VERSION
    sections := sectionsToSave.getD st.sections
    updatedAt := now
    authorId := st.currentUserId }

/-- Result of running `saveMetadata`: the new host, the new component
state, the `setMetadata` calls performed (target item id and written
namespace object), and whether a `console.warn` was emitted. -/
structure SaveOut where
  host : Host
  state : AppState
  writes : List (String × NsMeta)
  warned : Bool

/-- `saveMetadata` (`app.jsx`): drop the write with a warning when the
item is missing, the `isEditor` flag is false, or the editing
reference no longer matches the item; reject oversized payloads with
an error; otherwise read-merge-write the `"annotate"` sub-key
(falling back to an empty base object if the pre-write read throws)
and update the cache on success. -/
def saveMetadata (now : Nat) (h : Host) (st : AppState) (item : Option Item)
    (sectionsToSave : Option (List Section)) : SaveOut :=
  match item with
  | none => ⟨h, st, [], true⟩
  | some it =>
    if !st.isEditor then ⟨h, st, [], true⟩
    else if st.editingItemIdRef ≠ some it.id then ⟨h, st, [], true⟩
    else
      let st1 := { st with isSaving := true, error := none }
      let metadata := buildMetadata now st sectionsToSave
      let sizeCheck := checkPayloadSize metadata
      if !sizeCheck.isValid then
        ⟨h, { st1 with error := some (tooLargeMsg sizeCheck.size sizeCheck.maxSize),
                       isSaving := false }, [], false⟩
      else
        let existingMetadata : NsMeta :=
          match h.getMeta it.id with
          | none => NsMeta.empty
          | some v => v.getD NsMeta.empty
        let updatedMetadata := { existingMetadata with annotate := some metadata }
        if h.writeOk then
          let h' := { h with store := fun j => if j = it.id then some updatedMetadata
                                               else h.store j }
          ⟨h', { st1 with cache := mapSet st.cache it.id (sectionsToSave.getD st.sections),
                          isDirty := false, isSaving := false },
           [(it.id, updatedMetadata)], false⟩
        else
          ⟨h, { st1 with error := some "Failed to save: Unknown error",
                         isSaving := false }, [(it.id, updatedMetadata)], false⟩

/-- Result of processing one selection event: the new component state
and whether a host `getMetadata` round trip was performed. -/
structure SelOut where
  state : AppState
  fetched : Bool
  deriving DecidableEq, Repr

/-- The body of `handleSelectionUpdate` (`app.jsx`), i.e. the function
the selection debounce wraps: clear the selection-scoped state on zero
or many items, and on exactly one item resolve the editor role and run
`loadMetadata`. -/
def handleSelectionUpdate (freshId : String) (now : Nat) (h : Host) (st : AppState)
    (items : List Item) : SelOut :=
  let st := { st with selectionCount := items.length }
  match items with
  | [] =>
    ⟨{ st with selectedItem := none, selectedItemId := none, activeNoteId := none,
               activeSectionId := none, editingNoteId := none, isDirty := false,
               currentView := "list" }, false⟩
  | [item] =>
    let st := { st with selectedItem := some item, selectedItemId := some item.id }
    let willBeEditor := checkIsEditor h (some item)
    let st := { st with isEditor := willBeEditor }
    let out := loadMetadata freshId now h st (some item)
    ⟨out.state, out.fetched⟩
  | _ :: _ :: _ =>
    ⟨{ st with selectedItem := none, selectedItemId := none, activeNoteId := none,
               activeSectionId := none, editingNoteId := none, isDirty := false,
               currentView := "list" }, false⟩

/-- Timed semantics of the closure returned by `debounce` (`app.jsx`):
given the timestamped calls (non-decreasing times), the timestamped
invocations of the wrapped function.  Each call cancels a pending
timer that has not yet come due and schedules a new one `wait` ms out
with its own arguments. -/
def debounceFires (wait : Nat) : List (Nat × α) → List (Nat × α)
  | [] => []
  | [(t, a)] => [(t + wait, a)]
  | (t, a) :: (t', a') :: rest =>
    if t + wait ≤ t' then (t + wait, a) :: debounceFires wait ((t', a') :: rest)
    else debounceFires wait ((t', a') :: rest)

/-- The argument pair passed through `debouncedSave` to `saveMetadata`
(`app.jsx` lines 267-274): the item and the sections to save. -/
abbrev SaveArgs := Item × Option (List Section)

/-- `debouncedSave` (`app.jsx` lines 267-274) as the component actually
wires it: `React.useMemo(() => debounce(saveMetadata…, 400),
[saveMetadata])`, where `saveMetadata` is a `useCallback` keyed on
`[isEditor, currentUserId, sections]`.  Every edit handler calls
`setSections` before `debouncedSave`, so the following re-render
replaces `saveMetadata` and `useMemo` builds a fresh debounce closure
with its own (empty) pending-timer variable; the next edit's call
reaches that fresh closure and cannot cancel the previous closure's
timer.  Each edit-driven call is therefore the only call its closure
ever receives, and the timers fire independently in call order. -/
def debouncedSaveFires : List (Nat × SaveArgs) → List (Nat × SaveArgs)
  | [] => []
  | c :: rest => debounceFires AUTOSAVE_DEBOUNCE_MS [c] ++ debouncedSaveFires rest

/-- The burst condition of a call sequence: times non-decreasing and
each consecutive gap strictly below `wait`. -/
def gapsBelow (wait : Nat) : List (Nat × α) → Bool
  | [] => true
  | [_] => true
  | (t, _) :: (t', a') :: rest =>
    (t ≤ t' && t' < t + wait) && gapsBelow wait ((t', a') :: rest)

/-- The in-place `forEach((s, index) => s.order = index)` reindexing of
sections, starting at index `i`. -/
def reindexSectionsFrom (i : Int) : List Section → List Section
  | [] => []
  | s :: rest => { s with order := i } :: reindexSectionsFrom (i + 1) rest

/-- Reindexing a section list from 0, as every reorder/delete path in
`app.jsx` does. -/
def reindexSections (ss : List Section) : List Section := reindexSectionsFrom 0 ss

/-- The in-place `forEach((n, index) => n.order = index)` reindexing of
notes, starting at index `i`. -/
def reindexNotesFrom (i : Int) : List Note → List Note
  | [] => []
  | n :: rest => { n with order := i } :: reindexNotesFrom (i + 1) rest

/-- Reindexing a note list from 0. -/
def reindexNotes (ns : List Note) : List Note := reindexNotesFrom 0 ns

/-- The swap `[l[i], l[j]] = [l[j], l[i]]` on array elements (identity
when either index is out of range). -/
def listSwap (l : List α) (i j : Nat) : List α :=
  match l[i]?, l[j]? with
  | some a, some b => (l.set i b).set j a
  | _, _ => l

/-- The `order` fields of the sections form `i, i+1, ...` in array
order. -/
def denseSectionsFrom (i : Int) : List Section → Bool
  | [] => true
  | s :: rest => s.order == i && denseSectionsFrom (i + 1) rest

/-- The `order` fields of the notes form `i, i+1, ...` in array
order. -/
def denseNotesFrom (i : Int) : List Note → Bool
  | [] => true
  | n :: rest => n.order == i && denseNotesFrom (i + 1) rest

/-- The density invariant of the data model: section `order`s are the
contiguous sequence `0..n-1` matching array position, and within each
section the note `order`s are likewise dense. -/
def sectionsInvariant (ss : List Section) : Bool :=
  denseSectionsFrom 0 ss && ss.all (fun s => denseNotesFrom 0 s.notes)

/-- `deleteSection` (`app.jsx`): behind the editor/selection guards and
the `window.confirm` dialog (its outcome passed as `confirmed`), drop
the section and reindex the remaining ones densely. -/
def deleteSection (st : AppState) (sectionId : String) (confirmed : Bool) : AppState :=
  if !st.isEditor || st.selectedItem = none then st
  else
    match st.sections.find? (fun s => s.id == sectionId) with
    | none => st
    | some _ =>
      if !confirmed then st
      else
        let updatedSections := reindexSections (st.sections.filter (fun s => s.id ≠ sectionId))
        let st := { st with sections := updatedSections }
        let st :=
          if st.activeSectionId = some sectionId then
            { st with activeSectionId := none, activeNoteId := none, editingNoteId := none }
          else st
        { st with isDirty := true }

/-- `moveSection` (`app.jsx`): swap the section with its neighbour in
the given direction (any string other than `"up"` means down) and
reindex all section orders densely. -/
def moveSection (st : AppState) (sectionId : String) (direction : String) : AppState :=
  if !st.isEditor || st.selectedItem = none then st
  else
    match st.sections.findIdx? (fun s => s.id == sectionId) with
    | none => st
    | some index =>
      let newIndex : Int := if direction = "up" then (index : Int) - 1 else (index : Int) + 1
      if newIndex < 0 || (st.sections.length : Int) ≤ newIndex then st
      else
        let updatedSections := reindexSections (listSwap st.sections index newIndex.toNat)
        { st with sections := updatedSections, isDirty := true }

/-- `deleteNote` (`app.jsx`): behind the guards and the confirm dialog,
drop the note from its section and reindex that section's notes
densely. -/
def deleteNote (st : AppState) (noteId sectionId : String) (confirmed : Bool) : AppState :=
  if !st.isEditor || st.selectedItem = none then st
  else if !confirmed then st
  else
    let updatedSections := st.sections.map (fun sec =>
      if sec.id ≠ sectionId then sec
      else
        match sec.notes.findIdx? (fun n => n.id == noteId) with
        | none => sec
        | some _ =>
          { sec with
              notes := reindexNotes (sec.notes.filter (fun n => n.id ≠ noteId)) })
    let st := { st with sections := updatedSections }
    let st :=
      if st.activeNoteId = some noteId then
        { st with activeNoteId := none, editingNoteId := none }
      else st
    { st with isDirty := true }

/-- `moveNote` (`app.jsx`): swap the note with its neighbour inside its
section and reindex that section's notes densely. -/
def moveNote (st : AppState) (noteId sectionId direction : String) : AppState :=
  if !st.isEditor || st.selectedItem = none then st
  else
    match st.sections.find? (fun s => s.id == sectionId) with
    | none => st
    | some sec =>
      match sec.notes.findIdx? (fun n => n.id == noteId) with
      | none => st
      | some noteIndex =>
        let newIndex : Int :=
          if direction = "up" then (noteIndex : Int) - 1 else (noteIndex : Int) + 1
        if newIndex < 0 || (sec.notes.length : Int) ≤ newIndex then st
        else
          let updatedSections := st.sections.map (fun s =>
            if s.id ≠ sectionId then s
            else { s with notes := reindexNotes (listSwap s.notes noteIndex newIndex.toNat) })
          { st with sections := updatedSections, isDirty := true }

/-- `moveNoteToSection` (`app.jsx`): remove the note from the source
section (reindexing it densely) and append it to the target section
with `order` equal to the target's previous note count. -/
def moveNoteToSection (st : AppState) (now : Nat)
    (noteId fromSectionId toSectionId : String) : AppState :=
  if !st.isEditor || st.selectedItem = none then st
  else
    match st.sections.find? (fun s => s.id == fromSectionId) with
    | none => st
    | some fromSection =>
      match fromSection.notes.find? (fun n => n.id == noteId) with
      | none => st
      | some note =>
        match st.sections.find? (fun s => s.id == toSectionId) with
        | none => st
        | some _ =>
          let updatedSections := st.sections.map (fun sec =>
            if sec.id == fromSectionId then
              { sec with
                  notes := reindexNotes (sec.notes.filter (fun n => n.id ≠ noteId)) }
            else if sec.id == toSectionId then
              let notesCount := sec.notes.length
              let updatedNote := { note with sectionId := toSectionId,
                                             order := (notesCount : Int), updatedAt := now }
              { sec with notes := sec.notes ++ [updatedNote] }
            else sec)
          { st with sections := updatedSections, activeSectionId := some toSectionId,
                    isDirty := true }

/-- `INDICATOR_SIZE` (`src/unnamed/part_000`). -/
def INDICATOR_SIZE : Rat := 24

/-- `INDICATOR_OFFSET` (`src/unnamed/part_000`). -/
def INDICATOR_OFFSET : Rat := 8

/-- `calculateIndicatorPosition` (`src/unnamed/part_000`): anchor point
near the top-right corner of the item's bounding box, `null` when the
item has no bounds. -/
def calculateIndicatorPosition (item : Item) : Option (Rat × Rat) :=
  match item.bounds with
  | none => none
  | some bounds =>
    some (bounds.x + bounds.width - INDICATOR_SIZE / 2 - INDICATOR_OFFSET,
          bounds.y - bounds.height / 2 + INDICATOR_SIZE / 2 + INDICATOR_OFFSET)

/-- Result of an indicator-manager call: the new host, the function's
return value, the `setMetadata` calls performed, and the widget ids
created on the canvas. -/
structure IndOut where
  host : Host
  result : Option String
  writes : List (String × NsMeta)
  createdWidgets : List String

/-- `createIndicator` (`src/unnamed/part_000`): fresh editor check; if
a recorded indicator id resolves to a live widget, return it;
otherwise create the marker widget and read-merge-write its id into
the item's metadata. -/
def createIndicator (h : Host) (item : Item) : IndOut :=
  if !(isEditor h (some item)) then ⟨h, none, [], []⟩
  else
    match h.getMeta item.id with
    | none => ⟨h, none, [], []⟩
    | some metadata =>
      let recorded := metadata.bind (fun ns => ns.indicatorWidgetId)
      let recordedLive :=
        match recorded with
        | some wid0 => wid0 ≠ "" && h.canvas.contains wid0
        | none => false
      if recordedLive then ⟨h, recorded, [], []⟩
      else
        match calculateIndicatorPosition item with
        | none => ⟨h, none, [], []⟩
        | some _ =>
          let wid := h.freshWidgetId
          let h1 := { h with canvas := wid :: h.canvas }
          let updated := { (metadata.getD NsMeta.empty) with indicatorWidgetId := some wid }
          if h1.writeOk then
            ⟨{ h1 with store := fun j => if j = item.id then some updated else h1.store j },
             some wid, [(item.id, updated)], [wid]⟩
          else
            ⟨h1, none, [(item.id, updated)], [wid]⟩

/-- `deleteIndicator` (`src/unnamed/part_000`): fresh editor check;
when an indicator id is recorded, remove the widget if it is still on
the canvas (a failed lookup is swallowed), then read-merge-write the
metadata with the `indicatorWidgetId` key deleted. -/
def deleteIndicator (h : Host) (item : Item) : IndOut :=
  if !(isEditor h (some item)) then ⟨h, none, [], []⟩
  else
    match h.getMeta item.id with
    | none => ⟨h, none, [], []⟩
    | some metadata =>
      match metadata.bind (fun ns => ns.indicatorWidgetId) with
      | none => ⟨h, none, [], []⟩
      | some wid =>
        if wid = "" then ⟨h, none, [], []⟩
        else
          let h1 :=
            if h.canvas.contains wid
            then { h with canvas := h.canvas.filter (fun w => w ≠ wid) }
            else h
          let updated := { (metadata.getD NsMeta.empty) with indicatorWidgetId := none }
          if h1.writeOk then
            ⟨{ h1 with store := fun j => if j = item.id then some updated else h1.store j },
             none, [(item.id, updated)], []⟩
          else
            ⟨h1, none, [(item.id, updated)], []⟩

/-- JS `String.prototype.trim`: strip leading and trailing whitespace
(modelled on the ASCII whitespace characters). -/
def jsTrim (s : String) : String :=
  String.mk (((s.data.dropWhile Char.isWhitespace).reverse.dropWhile
    Char.isWhitespace).reverse)

/-- The `hasNotes` test of `syncIndicator`: JS
`notes && notes.trim().length > 0`. -/
def hasNotesB (notes : Option String) : Bool :=
  match notes with
  | none => false
  | some s => decide (0 < (jsTrim s).length)

/-- `syncIndicator` (`src/unnamed/part_000`): fresh editor check, then
create the indicator when trimmed content is non-empty and delete it
otherwise. -/
def syncIndicator (h : Host) (item : Item) (notes : Option String) : IndOut :=
  if !(isEditor h (some item)) then ⟨h, none, [], []⟩
  else if hasNotesB notes then createIndicator h item
  else deleteIndicator h item

/-- The `indicatorWidgetId` recorded in the store for an item (`none`
when the item has no metadata or the key is absent). -/
def storedIndicator (h : Host) (itemId : String) : Option String :=
  (h.store itemId).bind (fun ns => ns.indicatorWidgetId)

/-- A concrete board item used to evaluate the handlers. -/
def stdItem : Item :=
  { id := "item-B", createdBy := some "alice", bounds := some ⟨0, 0, 100, 50⟩ }

/-- A concrete host used to evaluate the handlers. -/
def stdHost : Host :=
  { store := fun _ => none
    readFails := fun _ => false
    writeOk := true
    userInfo := some (some "alice")
    canvas := []
    freshWidgetId := "widget-1" }

/-- A concrete component state used to evaluate the handlers. -/
def stdState : AppState :=
  { selectedItem := some stdItem
    selectedItemId := some "item-B"
    sections := []
    activeNoteId := none
    activeSectionId := none
    isEditor := true
    currentUserId := some "alice"
    selectionCount := 1
    editingNoteId := none
    isDirty := false
    isLoading := false
    isSaving := false
    error := none
    currentView := "list"
    expandedSections := []
    cache := []
    editingItemIdRef := some "item-B" }

/-- An item created by `"alice"`, targeted by a stale write. -/
def staleItem : Item := { id := "item-X", createdBy := some "alice", bounds := none }

/-- A host whose current user is `"bob"` — not the creator of
`staleItem` — with an empty stored namespace for every item. -/
def staleHost : Host :=
  { store := fun _ => some NsMeta.empty
    readFails := fun _ => false
    writeOk := true
    userInfo := some (some "bob")
    canvas := []
    freshWidgetId := "widget-1" }

/-- A component state whose `isEditor` flag is stale: it was resolved
`true` at selection time and never re-checked. -/
def staleState : AppState :=
  { stdState with selectedItem := some staleItem, selectedItemId := some "item-X",
                  editingItemIdRef := some "item-X", currentUserId := some "bob" }

/-- A stored namespace object carrying an indicator id and an opaque
sibling key next to the annotate data. -/
def mergeNs : NsMeta :=
  { annotate := none, indicatorWidgetId := some "w9", other := [("k", "v")] }

/-- A host that stores `mergeNs` for every item but whose `getMetadata`
currently throws. -/
def mergeHost : Host :=
  { store := fun _ => some mergeNs
    readFails := fun _ => true
    writeOk := true
    userInfo := some (some "alice")
    canvas := []
    freshWidgetId := "widget-1" }

/-- The same host with `getMetadata` healthy again. -/
def mergeOkHost : Host := { mergeHost with readFails := fun _ => false }

/-- A host for the indicator-clearing scenario: the item's metadata
records widget `"w9"`, which is live on the canvas. -/
def syncHost : Host :=
  { store := fun _ => some { annotate := none, indicatorWidgetId := some "w9", other := [] }
    readFails := fun _ => false
    writeOk := true
    userInfo := some (some "alice")
    canvas := ["w9"]
    freshWidgetId := "widget-1" }

/-- A section used by concrete cache scenarios. -/
def demoSection : Section :=
  { id := "sec-1", name := "General", order := 0, notes := [], createdAt := 0, updatedAt := 0 }

/-- A note used by the concrete density scenarios. -/
def demoNote : Note :=
  { id := "note-1", heading := "h", body := "b", itemId := "item-B", itemName := "n",
    itemType := "shape", sectionId := "sec-1", order := 0, createdAt := 0, updatedAt := 0,
    authorId := some "alice" }

/-- A two-section state with dense orders used to exercise the
reorder/delete operations. -/
def denseState : AppState :=
  { stdState with
      sections :=
        [{ demoSection with notes := [demoNote, { demoNote with id := "note-2", order := 1 }] },
         { demoSection with id := "sec-2", order := 1 }] }

/-- A note body of 2100 euro signs: 2100 characters, 6300 encoded
bytes — the kind of multi-byte content whose byte size exceeds the
ceiling while its character count alone would not prove it. -/
def bigBody : String := String.mk (List.replicate 2100 '€')

/-- A note carrying the oversized body. -/
def bigNote : Note := { demoNote with body := bigBody }

/-- A section holding the oversized note. -/
def bigSection : Section := { demoSection with notes := [bigNote] }

/-- A component state whose sections serialize past the ceiling. -/
def bigState : AppState := { stdState with sections := [bigSection] }

/-- The metadata record `saveMetadata` would build for `bigState`. -/
def bigMeta : AnnotateMeta :=
  { schemaVersion := SCHEMA_VERSION, sections := [bigSection], updatedAt := 0,
    authorId := some "alice" }

/-- C1: if at the moment `saveMetadata` executes the editing reference
does not equal the item's id, the call performs no host `setMetadata`,
leaves the host (store) and the component state (including the cache)
exactly as they were, and only emits a warning — so a debounced write
scheduled for one object can never land on a different object. -/
theorem saveMetadata_stale_guard_drops_write (now : Nat) (h : Host) (st : AppState)
    (item : Item) (sectionsToSave : Option (List Section))
    (hguard : st.editingItemIdRef ≠ some item.id) :
    saveMetadata now h st (some item) sectionsToSave = ⟨h, st, [], true⟩ := by
  by_cases he : st.isEditor
  · simp [saveMetadata, he, hguard]
  · simp [saveMetadata, he]

/-- Witness for C1: a state whose editing reference points at
`"item-A"` while the write targets `"item-B"` is dropped whole. -/
theorem saveMetadata_stale_guard_drops_write_witness :
    ({ stdState with editingItemIdRef := some "item-A" } : AppState).editingItemIdRef
        ≠ some stdItem.id ∧
    saveMetadata 0 stdHost { stdState with editingItemIdRef := some "item-A" }
        (some stdItem) none =
      ⟨stdHost, { stdState with editingItemIdRef := some "item-A" }, [], true⟩ :=
  ⟨by decide,
   saveMetadata_stale_guard_drops_write 0 stdHost
     { stdState with editingItemIdRef := some "item-A" } stdItem none (by decide)⟩

/-- C9: the editor-role resolver fails closed — it returns `false` for
an absent item, for a failed current-user lookup, and whenever
`createdBy` is not exactly the resolved current user id; it returns
`true` only when the resolved id is non-null (and non-empty) and
equals `createdBy`.  `checkIsEditor` in `app.jsx` is the same function
as `isEditor` in the indicator module. -/
theorem isEditor_fails_closed (h : Host) (it : Item) :
    (isEditor h none = false) ∧
    (h.userInfo = none → isEditor h (some it) = false) ∧
    (∀ v, h.userInfo = some v → it.createdBy ≠ v → isEditor h (some it) = false) ∧
    (isEditor h (some it) = true →
      ∃ s, h.userInfo = some (some s) ∧ s ≠ "" ∧ it.createdBy = some s) ∧
    (∀ item, checkIsEditor h item = isEditor h item) := by
  refine ⟨rfl, ?_, ?_, ?_, fun item => rfl⟩
  · intro hu; simp [isEditor, hu]
  · intro v hu hne; simp [isEditor, hu, hne]
  · intro htrue
    unfold isEditor at htrue
    cases hu : h.userInfo with
    | none => simp [hu] at htrue
    | some v =>
      simp [hu] at htrue
      cases v with
      | none => simp [jsTruthyStr] at htrue
      | some s =>
        simp [jsTruthyStr] at htrue
        exact ⟨s, rfl, htrue.1, htrue.2⟩

/-- Witness for C9: a creator mismatch at a concrete host is refused. -/
theorem isEditor_fails_closed_witness :
    stdHost.userInfo = some (some "alice") ∧
    ({ stdItem with createdBy := some "mallory" } : Item).createdBy ≠ some "alice" ∧
    isEditor stdHost (some { stdItem with createdBy := some "mallory" }) = false :=
  ⟨rfl, by decide,
   (isEditor_fails_closed stdHost { stdItem with createdBy := some "mallory" }).2.2.1
     (some "alice") rfl (by decide)⟩

/-- Loading metadata for a present item always points the editing
reference at that item, on every path of `loadMetadata`. -/
theorem loadMetadata_sets_editing_ref (freshId : String) (now : Nat) (h : Host)
    (st : AppState) (item : Item) :
    (loadMetadata freshId now h st (some item)).state.editingItemIdRef = some item.id := by
  simp only [loadMetadata]
  repeat' split
  all_goals rfl

/-- Counterexample to C2: processing a selection event with zero items
(or with two items) leaves `editingItemIdRef` untouched — it still
equals the previously active object's id `"item-B"` — so the event
does not invalidate the guard reference. -/
theorem selection_clear_keeps_editing_ref_cex :
    stdState.editingItemIdRef = some "item-B" ∧
    (handleSelectionUpdate "f" 0 stdHost stdState []).state.editingItemIdRef
      = some "item-B" ∧
    (handleSelectionUpdate "f" 0 stdHost stdState
        [{ stdItem with id := "item-C" }, { stdItem with id := "item-D" }]).state.editingItemIdRef
      = some "item-B" := by
  refine ⟨rfl, rfl, rfl⟩

/-- C2 as amended: a selection event carrying zero items or more than
one item leaves `editingItemIdRef` unchanged (still the previously
active object's id), so such a transition does not invalidate the
guard reference; the reference is reassigned only when a single-item
event is processed, at which point it becomes that item's id. -/
theorem selection_update_editing_ref (freshId : String) (now : Nat) (h : Host)
    (st : AppState) :
    (∀ items : List Item, items.length ≠ 1 →
      (handleSelectionUpdate freshId now h st items).state.editingItemIdRef
        = st.editingItemIdRef) ∧
    (∀ item : Item,
      (handleSelectionUpdate freshId now h st [item]).state.editingItemIdRef
        = some item.id) := by
  constructor
  · intro items hlen
    match items with
    | [] => rfl
    | [_] => simp at hlen
    | _ :: _ :: _ => rfl
  · intro item
    exact loadMetadata_sets_editing_ref freshId now h _ item

/-- Witness for C2 as amended: concrete zero-item and single-item
events. -/
theorem selection_update_editing_ref_witness :
    (handleSelectionUpdate "f" 0 stdHost stdState []).state.editingItemIdRef
      = stdState.editingItemIdRef ∧
    (handleSelectionUpdate "f" 0 stdHost stdState
        [{ stdItem with id := "item-C" }]).state.editingItemIdRef = some "item-C" :=
  ⟨(selection_update_editing_ref "f" 0 stdHost stdState).1 [] (by decide),
   (selection_update_editing_ref "f" 0 stdHost stdState).2 { stdItem with id := "item-C" }⟩

/-- Counterexample to C3: at the moment this `saveMetadata` executes,
a fresh role check against the host fails (`checkIsEditor` is false:
the current user `"bob"` did not create the item), yet the write
proceeds and mutates the store, because `saveMetadata` consults only
the `isEditor` flag resolved at selection time. -/
theorem write_role_not_reverified_cex :
    checkIsEditor staleHost (some staleItem) = false ∧
    (saveMetadata 0 staleHost staleState (some staleItem) none).writes.length = 1 ∧
    (saveMetadata 0 staleHost staleState (some staleItem) none).host.store "item-X"
      ≠ staleHost.store "item-X" := by decide

/-- C3 as amended: the indicator mutations (`createIndicator`,
`deleteIndicator`, `syncIndicator`) re-verify the editor role with a
fresh current-user lookup at the moment of the write and perform no
host mutation when it fails; `saveMetadata`, by contrast, gates its
write only on the `isEditor` flag resolved at selection time — it
performs no host mutation when that flag is false, and its writes,
resulting state and warnings are independent of the host's
current-user lookup at write time. -/
theorem write_time_role_checks (now : Nat) (h : Host) (u : Option (Option String))
    (st : AppState) (item : Option Item) (secs : Option (List Section)) :
    (st.isEditor = false → saveMetadata now h st item secs = ⟨h, st, [], true⟩) ∧
    ((saveMetadata now { h with userInfo := u } st item secs).writes
        = (saveMetadata now h st item secs).writes ∧
      (saveMetadata now { h with userInfo := u } st item secs).state
        = (saveMetadata now h st item secs).state ∧
      (saveMetadata now { h with userInfo := u } st item secs).warned
        = (saveMetadata now h st item secs).warned) ∧
    (∀ it2 : Item, isEditor h (some it2) = false →
      createIndicator h it2 = ⟨h, none, [], []⟩ ∧
      deleteIndicator h it2 = ⟨h, none, [], []⟩ ∧
      ∀ notes, syncIndicator h it2 notes = ⟨h, none, [], []⟩) := by
  refine ⟨?_, ?_, ?_⟩
  · intro hfalse
    cases item with
    | none => rfl
    | some it => simp [saveMetadata, hfalse]
  · cases item with
    | none => exact ⟨rfl, rfl, rfl⟩
    | some it =>
      by_cases he : st.isEditor <;>
        by_cases hr : st.editingItemIdRef = some it.id <;>
        by_cases hv : (checkPayloadSize (buildMetadata now st secs)).isValid <;>
        by_cases hw : h.writeOk <;>
        by_cases hf : h.readFails it.id <;>
        simp [saveMetadata, Host.getMeta, he, hr, hv, hw, hf]
  · intro it2 hfail
    refine ⟨?_, ?_, fun notes => ?_⟩
    · simp [createIndicator, hfail]
    · simp [deleteIndicator, hfail]
    · simp [syncIndicator, hfail]

/-- Witness for C3 as amended: a host whose fresh role check fails
triggers no indicator mutation, and a state with a false `isEditor`
flag triggers no save. -/
theorem write_time_role_checks_witness :
    isEditor staleHost (some staleItem) = false ∧
    createIndicator staleHost staleItem = ⟨staleHost, none, [], []⟩ ∧
    saveMetadata 0 staleHost { staleState with isEditor := false } (some staleItem) none
      = ⟨staleHost, { staleState with isEditor := false }, [], true⟩ :=
  ⟨by decide,
   ((write_time_role_checks 0 staleHost none { staleState with isEditor := false }
       (some staleItem) none).2.2 staleItem (by decide)).1,
   (write_time_role_checks 0 staleHost none { staleState with isEditor := false }
       (some staleItem) none).1 (by decide)⟩

/-- Counterexample to C8: when the pre-write `getMetadata` throws,
`saveMetadata` falls back to an empty base object and the write blindly
overwrites the namespace — the stored `indicatorWidgetId` (`"w9"`) and
the opaque sibling key are lost, so not every metadata write is
read-merge-write. -/
theorem save_blind_overwrite_on_read_failure_cex :
    storedIndicator mergeHost "item-B" = some "w9" ∧
    ((mergeHost.store "item-B").getD NsMeta.empty).other = [("k", "v")] ∧
    (saveMetadata 0 mergeHost stdState (some stdItem) none).writes.length = 1 ∧
    storedIndicator (saveMetadata 0 mergeHost stdState (some stdItem) none).host "item-B"
      = none ∧
    (((saveMetadata 0 mergeHost stdState (some stdItem) none).host.store "item-B").getD
        NsMeta.empty).other = [] := by decide

/-- C8 as amended: whenever the pre-write metadata read succeeds,
`saveMetadata` writes a merge of the object it read, preserving the
`indicatorWidgetId` key and every opaque sibling key; the indicator
manager's `createIndicator` and `deleteIndicator` only ever write a
merge of the object they read, preserving the `"annotate"` sub-key and
every opaque sibling key (when `saveMetadata`'s pre-write read throws,
the source falls back to an empty base object and the other keys are
lost — the counterexample above). -/
theorem read_merge_write_preserves_keys (now : Nat) (h : Host) (st : AppState)
    (item : Item) (secs : Option (List Section)) :
    (h.readFails item.id = false →
      ∀ w ∈ (saveMetadata now h st (some item) secs).writes,
        w.1 = item.id ∧
        w.2.indicatorWidgetId = ((h.store item.id).getD NsMeta.empty).indicatorWidgetId ∧
        w.2.other = ((h.store item.id).getD NsMeta.empty).other) ∧
    (∀ w ∈ (createIndicator h item).writes,
        w.1 = item.id ∧
        w.2.annotate = ((h.store item.id).getD NsMeta.empty).annotate ∧
        w.2.other = ((h.store item.id).getD NsMeta.empty).other) ∧
    (∀ w ∈ (deleteIndicator h item).writes,
        w.1 = item.id ∧
        w.2.annotate = ((h.store item.id).getD NsMeta.empty).annotate ∧
        w.2.other = ((h.store item.id).getD NsMeta.empty).other) := by
  refine ⟨?_, ?_, ?_⟩
  · intro hf w hw
    by_cases he : st.isEditor
    case neg => simp [saveMetadata, he] at hw
    by_cases hr : st.editingItemIdRef = some item.id
    case neg => simp [saveMetadata, he, hr] at hw
    by_cases hv : (checkPayloadSize (buildMetadata now st secs)).isValid
    case neg => simp [saveMetadata, he, hr, hv] at hw
    by_cases hwk : h.writeOk <;>
      simp [saveMetadata, Host.getMeta, he, hr, hv, hwk, hf] at hw <;>
      simp [hw]
  · intro w hw
    simp only [createIndicator, Host.getMeta] at hw
    by_cases hrole : isEditor h (some item)
    case neg => simp [hrole] at hw
    by_cases hf : h.readFails item.id
    case pos => simp [hrole, hf] at hw
    simp only [hrole, hf, Bool.not_true, if_false, ite_false, reduceIte] at hw
    repeat' split at hw
    all_goals simp_all
  · intro w hw
    simp only [deleteIndicator, Host.getMeta] at hw
    by_cases hrole : isEditor h (some item)
    case neg => simp [hrole] at hw
    by_cases hf : h.readFails item.id
    case pos => simp [hrole, hf] at hw
    simp only [hrole, hf, Bool.not_true, if_false, ite_false, reduceIte] at hw
    repeat' split at hw
    all_goals simp_all

/-- Witness for C8 as amended: with a healthy read, the single write
performed by `saveMetadata` still carries the stored `"w9"` indicator
id and the opaque sibling key. -/
theorem read_merge_write_preserves_keys_witness :
    mergeOkHost.readFails stdItem.id = false ∧
    ((saveMetadata 0 mergeOkHost stdState (some stdItem) none).writes.getD 0
        ("", NsMeta.empty)).2.indicatorWidgetId = some "w9" ∧
    ((saveMetadata 0 mergeOkHost stdState (some stdItem) none).writes.getD 0
        ("", NsMeta.empty)).2.other = [("k", "v")] := by
  refine ⟨rfl, ?_, ?_⟩ <;>
  · have hmem : ((saveMetadata 0 mergeOkHost stdState (some stdItem) none).writes.getD 0
        ("", NsMeta.empty)) ∈ (saveMetadata 0 mergeOkHost stdState (some stdItem) none).writes := by
      decide
    have hfacts := (read_merge_write_preserves_keys 0 mergeOkHost stdState stdItem none).1
      rfl _ hmem
    first
    | (rw [hfacts.2.1]; decide)
    | (rw [hfacts.2.2]; decide)

/-- Removing every occurrence of `x` from a list leaves a list that
does not contain `x`. -/
theorem contains_filter_ne (l : List String) (x : String) :
    (l.filter (fun w => w ≠ x)).contains x = false := by
  induction l with
  | nil => rfl
  | cons a t ih =>
    by_cases hax : a = x <;> simp_all [List.filter_cons]
    exact fun hxa => hax hxa.symm

/-- C10: for an item the current user owns, invoking `syncIndicator`
with content that is empty after trimming removes the recorded
indicator widget from the canvas and leaves the `indicatorWidgetId`
key absent from the item's stored metadata — and the stale id is
cleared even when the widget lookup fails because the widget is
already gone (no hypothesis on canvas membership is needed). -/
theorem syncIndicator_empty_clears (h : Host) (item : Item) (notes : Option String)
    (m : Option NsMeta) (wid : String)
    (hrole : isEditor h (some item) = true)
    (hempty : hasNotesB notes = false)
    (hread : h.readFails item.id = false)
    (hstore : h.store item.id = m)
    (hwid : m.bind (fun ns => ns.indicatorWidgetId) = some wid)
    (hne : wid ≠ "")
    (hw : h.writeOk = true) :
    storedIndicator (syncIndicator h item notes).host item.id = none ∧
    (syncIndicator h item notes).host.canvas.contains wid = false := by
  subst hstore
  simp only [syncIndicator, hrole, hempty, Bool.not_true, Bool.false_eq_true,
    if_false, reduceIte]
  simp only [deleteIndicator, hrole, Host.getMeta, hread, Bool.not_true,
    Bool.false_eq_true, if_false, reduceIte, hwid]
  rw [if_neg hne]
  by_cases hc : h.canvas.contains wid = true
  · simp only [hc, if_true, reduceIte, hw, storedIndicator]
    refine ⟨by simp, ?_⟩
    exact contains_filter_ne h.canvas wid
  · simp only [Bool.not_eq_true] at hc
    simp only [hc, Bool.false_eq_true, if_false, reduceIte, hw, storedIndicator]
    refine ⟨by simp, by simp [hc]⟩

/-- Witness for C10: clearing the content of an annotated item removes
widget `"w9"` from the canvas and the id from the stored metadata. -/
theorem syncIndicator_empty_clears_witness :
    storedIndicator (syncIndicator syncHost stdItem (some "   ")).host stdItem.id = none ∧
    (syncIndicator syncHost stdItem (some "   ")).host.canvas.contains "w9" = false :=
  syncIndicator_empty_clears syncHost stdItem (some "   ")
    (some { annotate := none, indicatorWidgetId := some "w9", other := [] }) "w9"
    (by decide) (by decide) rfl rfl rfl (by decide) rfl

/-- Setting a key in the cache map makes lookups of that key return
the new value. -/
theorem mapGet_mapSet (m : List (String × α)) (k : String) (v : α) :
    mapGet (mapSet m k v) k = some v := by
  simp [mapSet, mapGet]

/-- A load whose item id is in the cache is served from the cache: no
fetch, the cached sections are published, the cache is untouched. -/
theorem loadMetadata_cache_hit (freshId : String) (now : Nat) (h : Host)
    (st : AppState) (it : Item) (cs : List Section)
    (hcs : mapGet st.cache it.id = some cs) :
    (loadMetadata freshId now h st (some it)).fetched = false ∧
    (loadMetadata freshId now h st (some it)).state.sections = cs ∧
    (loadMetadata freshId now h st (some it)).state.cache = st.cache := by
  simp only [loadMetadata, hcs]
  cases cs <;> refine ⟨by trivial, by trivial, by trivial⟩

/-- C6: a `loadMetadata` whose item id is cached returns the cached
sections, fetches nothing from the host and leaves the cache
unchanged; a cache miss fetches, and on a successful fetch with
annotate data the sorted sections are stored in the cache; a
successful `saveMetadata` stores the just-written sections in the
cache directly (no re-read), so that a subsequent `loadMetadata` for
the same item is a cache hit: it performs no host fetch and returns
exactly the saved sections. -/
theorem cache_read_through (freshId : String) (now now2 : Nat) (h : Host)
    (st : AppState) (it : Item) (secs : Option (List Section)) :
    (∀ cs, mapGet st.cache it.id = some cs →
      (loadMetadata freshId now h st (some it)).fetched = false ∧
      (loadMetadata freshId now h st (some it)).state.sections = cs ∧
      (loadMetadata freshId now h st (some it)).state.cache = st.cache) ∧
    (∀ ns a, mapGet st.cache it.id = none → h.readFails it.id = false →
      h.store it.id = some ns → ns.annotate = some a →
      (loadMetadata freshId now h st (some it)).fetched = true ∧
      mapGet (loadMetadata freshId now h st (some it)).state.cache it.id =
        some ((sortSections a.sections).map
          (fun s => { s with notes := sortNotes s.notes }))) ∧
    (st.isEditor = true → st.editingItemIdRef = some it.id →
      (checkPayloadSize (buildMetadata now2 st secs)).isValid = true →
      h.writeOk = true →
      mapGet (saveMetadata now2 h st (some it) secs).state.cache it.id
        = some (secs.getD st.sections) ∧
      (loadMetadata freshId now h ((saveMetadata now2 h st (some it) secs).state)
          (some it)).fetched = false ∧
      (loadMetadata freshId now h ((saveMetadata now2 h st (some it) secs).state)
          (some it)).state.sections = secs.getD st.sections) := by
  refine ⟨?_, ?_, ?_⟩
  · intro cs hcs
    exact loadMetadata_cache_hit freshId now h st it cs hcs
  · intro ns a hmiss hrf hst hann
    simp only [loadMetadata, hmiss, Host.getMeta, hrf, Bool.false_eq_true, if_false,
      reduceIte, hst, Option.some_bind, hann]
    split <;> exact ⟨by trivial, mapGet_mapSet _ _ _⟩
  · intro he hr hv hw
    have hsave : (saveMetadata now2 h st (some it) secs).state.cache
        = mapSet st.cache it.id (secs.getD st.sections) := by
      simp [saveMetadata, he, hr, hv, hw, Host.getMeta]
    have hhit : mapGet (saveMetadata now2 h st (some it) secs).state.cache it.id
        = some (secs.getD st.sections) := by
      rw [hsave]; exact mapGet_mapSet _ _ _
    have hreload := loadMetadata_cache_hit freshId now h
      (saveMetadata now2 h st (some it) secs).state it (secs.getD st.sections) hhit
    exact ⟨hhit, hreload.1, hreload.2.1⟩

/-- Witness for C6: saving `[demoSection]` for the selected item puts
it in the cache, and the follow-up load is served from the cache with
no host fetch. -/
theorem cache_read_through_witness :
    mapGet (saveMetadata 0 stdHost stdState (some stdItem) (some [demoSection])).state.cache
      "item-B" = some [demoSection] ∧
    (loadMetadata "f" 0 stdHost
        ((saveMetadata 0 stdHost stdState (some stdItem) (some [demoSection])).state)
        (some stdItem)).fetched = false ∧
    (loadMetadata "f" 0 stdHost
        ((saveMetadata 0 stdHost stdState (some stdItem) (some [demoSection])).state)
        (some stdItem)).state.sections = [demoSection] :=
  (cache_read_through "f" 0 0 stdHost stdState stdItem (some [demoSection])).2.2
    (by decide) (by decide) (by decide) rfl

/-- A burst of calls reaching one persistent debounce closure, with
every gap below the quiet window, collapses to exactly one invocation:
the last call's arguments, fired `wait` ms after the last call.  This
is the semantics of the `debounce` utility itself (`app.jsx` 69-79). -/
theorem debounceFires_burst {α : Type} (wait : Nat) (c : Nat × α) (calls : List (Nat × α))
    (hgap : gapsBelow wait (c :: calls) = true) :
    debounceFires wait (c :: calls) =
      [((calls.getLastD c).1 + wait, (calls.getLastD c).2)] := by
  induction calls generalizing c with
  | nil => simp [debounceFires, List.getLastD]
  | cons c' rest ih =>
    obtain ⟨t, a⟩ := c
    obtain ⟨t', a'⟩ := c'
    simp only [gapsBelow, Bool.and_eq_true, decide_eq_true_eq] at hgap
    have hlt : ¬ (t + wait ≤ t') := Nat.not_le.mpr hgap.1.2
    simp only [debounceFires, List.getLastD_cons]
    rw [if_neg hlt]
    exact ih (t', a') hgap.2

/-- C5 (the code defeats its own debounce): because `debouncedSave` is
rebuilt by `useMemo` whenever `saveMetadata` changes — and
`saveMetadata` is keyed on `sections`, which every edit updates before
calling the debounced save — each edit-driven call reaches a fresh
closure, so a burst of `n` edit calls produces `n` `saveMetadata`
invocations, each 400 ms after its own call with its own arguments.
Concretely, two edits at 0 ms and 100 ms (gap below the 400 ms window)
fire twice, at 400 ms and 500 ms; the `debounce` utility itself, had
one closure received both calls, would have fired exactly once, at
500 ms, with the last call's arguments — the behavior the spec
requires. -/
theorem autosave_burst_fires_per_edit :
    (∀ calls : List (Nat × SaveArgs),
      debouncedSaveFires calls
        = calls.map (fun c => (c.1 + AUTOSAVE_DEBOUNCE_MS, c.2)) ∧
      (debouncedSaveFires calls).length = calls.length) ∧
    debouncedSaveFires
        [((0 : Nat), ((stdItem, some [demoSection]) : SaveArgs)), (100, (stdItem, none))]
      = [(400, (stdItem, some [demoSection])), (500, (stdItem, none))] ∧
    debounceFires AUTOSAVE_DEBOUNCE_MS
        [((0 : Nat), ((stdItem, some [demoSection]) : SaveArgs)), (100, (stdItem, none))]
      = [(500, (stdItem, none))] := by
  refine ⟨?_, by decide, by decide⟩
  intro calls
  have heq : debouncedSaveFires calls
      = calls.map (fun c => (c.1 + AUTOSAVE_DEBOUNCE_MS, c.2)) := by
    induction calls with
    | nil => rfl
    | cons c t ih =>
      obtain ⟨tc, ac⟩ := c
      simp [debouncedSaveFires, debounceFires, ih]
  exact ⟨heq, by rw [heq, List.length_map]⟩

/-- Reindexing sections from `i` yields orders `i, i+1, ...`. -/
theorem denseSectionsFrom_reindexFrom (l : List Section) (i : Int) :
    denseSectionsFrom i (reindexSectionsFrom i l) = true := by
  induction l generalizing i with
  | nil => rfl
  | cons s t ih => simp [reindexSectionsFrom, denseSectionsFrom, ih]

/-- Reindexing notes from `i` yields orders `i, i+1, ...`. -/
theorem denseNotesFrom_reindexFrom (l : List Note) (i : Int) :
    denseNotesFrom i (reindexNotesFrom i l) = true := by
  induction l generalizing i with
  | nil => rfl
  | cons n t ih => simp [reindexNotesFrom, denseNotesFrom, ih]

/-- Reindexing sections does not change their note lists. -/
theorem reindexSectionsFrom_all_notes (l : List Section) (i : Int) :
    (reindexSectionsFrom i l).all (fun s => denseNotesFrom 0 s.notes)
      = l.all (fun s => denseNotesFrom 0 s.notes) := by
  induction l generalizing i with
  | nil => rfl
  | cons s t ih => simp [reindexSectionsFrom, List.all_cons, ih]

/-- Mapping a function that does not touch any `order` field preserves
density of the section orders. -/
theorem denseSectionsFrom_map_of_order_eq (f : Section → Section) (l : List Section)
    (i : Int) (hf : ∀ s ∈ l, (f s).order = s.order)
    (h : denseSectionsFrom i l = true) : denseSectionsFrom i (l.map f) = true := by
  induction l generalizing i with
  | nil => rfl
  | cons s t ih =>
    simp only [List.map_cons, denseSectionsFrom, Bool.and_eq_true] at h ⊢
    exact ⟨by simp [hf s (by simp), h.1], ih (i + 1) (fun x hx => hf x (by simp [hx])) h.2⟩

/-- Every element of a swapped list is an element of the original. -/
theorem mem_listSwap {α : Type} (l : List α) (i j : Nat) (x : α)
    (hx : x ∈ listSwap l i j) : x ∈ l := by
  unfold listSwap at hx
  split at hx
  case h_1 a b ha hb =>
    rcases List.mem_or_eq_of_mem_set hx with hx1 | rfl
    · rcases List.mem_or_eq_of_mem_set hx1 with hx2 | rfl
      · exact hx2
      · exact List.getElem?_mem hb
    · exact List.getElem?_mem ha
  case h_2 => exact hx

/-- `all` survives filtering. -/
theorem all_filter_of_all {α : Type} (l : List α) (p q : α → Bool)
    (h : l.all p = true) : (l.filter q).all p = true := by
  simp only [List.all_eq_true] at h ⊢
  exact fun x hx => h x (List.mem_filter.mp hx).1

/-- `all` survives swapping two elements. -/
theorem all_listSwap {α : Type} (l : List α) (i j : Nat) (p : α → Bool)
    (h : l.all p = true) : (listSwap l i j).all p = true := by
  simp only [List.all_eq_true] at h ⊢
  exact fun x hx => h x (mem_listSwap l i j x hx)

/-- Appending a note whose order is the next index preserves density. -/
theorem denseNotesFrom_append (l : List Note) (i : Int) (n : Note)
    (hord : n.order = i + l.length) (h : denseNotesFrom i l = true) :
    denseNotesFrom i (l ++ [n]) = true := by
  induction l generalizing i with
  | nil =>
    have hn : n.order = i := by simpa using hord
    simp [denseNotesFrom, hn]
  | cons m t ih =>
    simp only [denseNotesFrom, Bool.and_eq_true] at h ⊢
    refine ⟨h.1, ?_⟩
    refine ih (i + 1) ?_ h.2
    simp only [List.length_cons] at hord
    omega

/-- A map whose touched sections all end up with dense notes keeps the
"every section's notes are dense" invariant. -/
theorem all_notes_map (f : Section → Section) (l : List Section)
    (hf : ∀ s ∈ l, denseNotesFrom 0 (f s).notes = true) :
    (l.map f).all (fun s => denseNotesFrom 0 s.notes) = true := by
  simp only [List.all_eq_true]
  intro x hx
  rcases List.mem_map.mp hx with ⟨s, hs, rfl⟩
  exact hf s hs

/-- `deleteSection` preserves the density invariant. -/
theorem deleteSection_keeps_invariant (st : AppState) (sid : String) (cf : Bool)
    (hinv : sectionsInvariant st.sections = true) :
    sectionsInvariant (deleteSection st sid cf).sections = true := by
  simp only [sectionsInvariant, Bool.and_eq_true] at hinv
  simp only [deleteSection]
  repeat' split
  all_goals simp only [sectionsInvariant, Bool.and_eq_true]
  all_goals try exact hinv
  all_goals constructor
  all_goals try exact denseSectionsFrom_reindexFrom _ _
  all_goals rw [reindexSections, reindexSectionsFrom_all_notes]
  all_goals exact all_filter_of_all _ _ _ hinv.2

/-- `moveSection` preserves the density invariant. -/
theorem moveSection_keeps_invariant (st : AppState) (sid dir : String)
    (hinv : sectionsInvariant st.sections = true) :
    sectionsInvariant (moveSection st sid dir).sections = true := by
  simp only [sectionsInvariant, Bool.and_eq_true] at hinv
  simp only [moveSection]
  repeat' split
  all_goals simp only [sectionsInvariant, Bool.and_eq_true]
  all_goals try exact hinv
  all_goals constructor
  all_goals try exact denseSectionsFrom_reindexFrom _ _
  all_goals rw [reindexSections, reindexSectionsFrom_all_notes]
  all_goals exact all_listSwap _ _ _ _ hinv.2

/-- `deleteNote` preserves the density invariant. -/
theorem deleteNote_keeps_invariant (st : AppState) (nid sid : String) (cf : Bool)
    (hinv : sectionsInvariant st.sections = true) :
    sectionsInvariant (deleteNote st nid sid cf).sections = true := by
  simp only [sectionsInvariant, Bool.and_eq_true] at hinv
  simp only [deleteNote]
  repeat' split
  all_goals simp only [sectionsInvariant, Bool.and_eq_true]
  all_goals try exact hinv
  all_goals constructor
  · apply denseSectionsFrom_map_of_order_eq _ _ _ _ hinv.1
    intro s _
    dsimp only
    split
    · rfl
    · split <;> rfl
  · apply all_notes_map
    intro s hs
    dsimp only
    split
    · exact (List.all_eq_true.mp hinv.2) s hs
    · split
      · exact (List.all_eq_true.mp hinv.2) s hs
      · exact denseNotesFrom_reindexFrom _ _
  · apply denseSectionsFrom_map_of_order_eq _ _ _ _ hinv.1
    intro s _
    dsimp only
    split
    · rfl
    · split <;> rfl
  · apply all_notes_map
    intro s hs
    dsimp only
    split
    · exact (List.all_eq_true.mp hinv.2) s hs
    · split
      · exact (List.all_eq_true.mp hinv.2) s hs
      · exact denseNotesFrom_reindexFrom _ _

/-- `moveNote` preserves the density invariant. -/
theorem moveNote_keeps_invariant (st : AppState) (nid sid dir : String)
    (hinv : sectionsInvariant st.sections = true) :
    sectionsInvariant (moveNote st nid sid dir).sections = true := by
  simp only [sectionsInvariant, Bool.and_eq_true] at hinv
  simp only [moveNote]
  repeat' split
  all_goals simp only [sectionsInvariant, Bool.and_eq_true]
  all_goals try exact hinv
  all_goals refine ⟨?_, ?_⟩
  all_goals try
    (apply denseSectionsFrom_map_of_order_eq _ _ _ _ hinv.1
     intro s _
     dsimp only
     split <;> rfl)
  all_goals
    (apply all_notes_map
     intro s hs
     dsimp only
     split <;>
       first
         | exact (List.all_eq_true.mp hinv.2) s hs
         | exact denseNotesFrom_reindexFrom _ _)

/-- `moveNoteToSection` preserves the density invariant. -/
theorem moveNoteToSection_keeps_invariant (st : AppState) (now : Nat)
    (nid fromId toId : String)
    (hinv : sectionsInvariant st.sections = true) :
    sectionsInvariant (moveNoteToSection st now nid fromId toId).sections = true := by
  simp only [sectionsInvariant, Bool.and_eq_true] at hinv
  simp only [moveNoteToSection]
  repeat' split
  all_goals simp only [sectionsInvariant, Bool.and_eq_true]
  all_goals try exact hinv
  all_goals constructor
  · apply denseSectionsFrom_map_of_order_eq _ _ _ _ hinv.1
    intro s _
    dsimp only
    split
    · rfl
    · split <;> rfl
  · apply all_notes_map
    intro s hs
    dsimp only
    split
    · exact denseNotesFrom_reindexFrom _ _
    · split
      · refine denseNotesFrom_append _ _ _ ?_ ((List.all_eq_true.mp hinv.2) s hs)
        dsimp only
        omega
      · exact (List.all_eq_true.mp hinv.2) s hs

/-- C7: each reorder/delete operation — `deleteSection`,
`moveSection`, `deleteNote`, `moveNote`, `moveNoteToSection` —
preserves the density invariant: section `order`s form the contiguous
sequence `0..n-1` matching array position, and within each section the
note `order`s are likewise dense. -/
theorem reorder_delete_dense (st : AppState) (now : Nat)
    (sid nid fromId toId dir : String) (cf : Bool)
    (hinv : sectionsInvariant st.sections = true) :
    sectionsInvariant (deleteSection st sid cf).sections = true ∧
    sectionsInvariant (moveSection st sid dir).sections = true ∧
    sectionsInvariant (deleteNote st nid sid cf).sections = true ∧
    sectionsInvariant (moveNote st nid sid dir).sections = true ∧
    sectionsInvariant (moveNoteToSection st now nid fromId toId).sections = true :=
  ⟨deleteSection_keeps_invariant st sid cf hinv,
   moveSection_keeps_invariant st sid dir hinv,
   deleteNote_keeps_invariant st nid sid cf hinv,
   moveNote_keeps_invariant st nid sid dir hinv,
   moveNoteToSection_keeps_invariant st now nid fromId toId hinv⟩

/-- Witness for C7: on a concrete dense two-section state every
operation leaves the invariant intact. -/
theorem reorder_delete_dense_witness :
    sectionsInvariant denseState.sections = true ∧
    sectionsInvariant (moveSection denseState "sec-2" "up").sections = true ∧
    sectionsInvariant (deleteNote denseState "note-1" "sec-1" true).sections = true :=
  ⟨by decide,
   (reorder_delete_dense denseState 0 "sec-2" "note-1" "sec-1" "sec-2" "up" true
     (by decide)).2.1,
   (reorder_delete_dense denseState 0 "sec-1" "note-1" "sec-1" "sec-2" "up" true
     (by decide)).2.2.1⟩

/-- Concatenation adds UTF-8 byte lengths. -/
theorem utf8ByteLen_append (s t : String) :
    utf8ByteLen (s ++ t) = utf8ByteLen s + utf8ByteLen t := by
  simp [utf8ByteLen]

/-- Folding `++` over a list of strings accumulates their byte
lengths. -/
theorem utf8ByteLen_foldl_append (l : List String) (acc : String) :
    utf8ByteLen (l.foldl (· ++ ·) acc) = utf8ByteLen acc + (l.map utf8ByteLen).sum := by
  induction l generalizing acc with
  | nil => simp
  | cons s t ih =>
    simp [List.foldl_cons, ih, utf8ByteLen_append]
    omega

/-- The byte length of a joined list of strings is the sum of the
parts. -/
theorem utf8ByteLen_join (l : List String) :
    utf8ByteLen (String.join l) = (l.map utf8ByteLen).sum := by
  simp [String.join, utf8ByteLen_foldl_append]
  rfl

/-- The serialized byte size of a JSON string made of `n` copies of a
character that needs no escaping: two quotes plus `n` times the
character's UTF-8 width. -/
theorem utf8ByteLen_jsonStr_replicate (n : Nat) (c : Char)
    (hc : jsonEscapeChar c = String.mk [c]) :
    utf8ByteLen (jsonStr (String.mk (List.replicate n c))) = 2 + n * utf8CharLen c := by
  simp [jsonStr, utf8ByteLen_append, utf8ByteLen_join, List.map_replicate, hc,
        List.sum_replicate, smul_eq_mul]
  simp [utf8ByteLen, utf8CharLen]
  omega

/-- Interposing a separator in a one-element list is the element. -/
theorem intercalate_singleton (sep x : String) : String.intercalate sep [x] = x := rfl

/-- The JSON rendering of the oversized body is 6302 bytes. -/
theorem bigBody_jsonStr_size : utf8ByteLen (jsonStr bigBody) = 6302 := by
  have h := utf8ByteLen_jsonStr_replicate 2100 '€' (by decide)
  rw [show utf8CharLen '€' = 3 from by decide] at h
  exact h.trans (by norm_num)

/-- The oversized metadata record serializes to exactly 6620 bytes. -/
theorem bigState_meta_size :
    (checkPayloadSize (buildMetadata 0 bigState none)).size = 6620 := by
  simp only [checkPayloadSize]
  rw [show buildMetadata 0 bigState none = bigMeta from rfl]
  simp only [stringifyMeta, stringifySection, stringifyNote, jsonArr, jsonStrOpt,
    bigMeta, bigSection, bigNote, demoSection, demoNote, List.map_cons, List.map_nil,
    intercalate_singleton, utf8ByteLen_append]
  rw [bigBody_jsonStr_size]
  decide

/-- The oversized metadata record fails the payload size check. -/
theorem bigState_meta_invalid :
    (checkPayloadSize (buildMetadata 0 bigState none)).isValid = false := by
  have h := bigState_meta_size
  simp only [checkPayloadSize] at h ⊢
  rw [h]
  decide

/-- A write whose built metadata fails the size check is rejected
whole: no host call, no state change beyond the error message. -/
theorem saveMetadata_too_large_drops (now : Nat) (h : Host) (st : AppState)
    (item : Item) (secs : Option (List Section))
    (he : st.isEditor = true)
    (hr : st.editingItemIdRef = some item.id)
    (hbig : (checkPayloadSize (buildMetadata now st secs)).isValid = false) :
    saveMetadata now h st (some item) secs =
      ⟨h, { st with isSaving := false,
                    error := some (tooLargeMsg
                      (checkPayloadSize (buildMetadata now st secs)).size
                      (checkPayloadSize (buildMetadata now st secs)).maxSize) },
       [], false⟩ := by
  simp [saveMetadata, he, hr, hbig]

/-- C4 as amended: when the metadata record's serialized byte size
exceeds the 6144-byte ceiling, `saveMetadata` performs no host
`setMetadata` call, leaves the host, the cache and the in-memory
sections untouched, and sets an error message that includes the
measured size and the ceiling rounded to whole kilobytes (not the
exact byte figures). -/
theorem saveMetadata_rejects_oversized (now : Nat) (h : Host) (st : AppState)
    (item : Item) (secs : Option (List Section))
    (he : st.isEditor = true)
    (hr : st.editingItemIdRef = some item.id)
    (hbig : (checkPayloadSize (buildMetadata now st secs)).isValid = false) :
    saveMetadata now h st (some item) secs =
      ⟨h, { st with isSaving := false,
                    error := some (tooLargeMsg
                      (checkPayloadSize (buildMetadata now st secs)).size
                      (checkPayloadSize (buildMetadata now st secs)).maxSize) },
       [], false⟩ :=
  saveMetadata_too_large_drops now h st item secs he hr hbig

/-- Witness for C4 as amended: the concrete oversized state is
rejected whole, with the rounded-kilobyte message. -/
theorem saveMetadata_rejects_oversized_witness :
    (checkPayloadSize (buildMetadata 0 bigState none)).isValid = false ∧
    saveMetadata 0 stdHost bigState (some stdItem) none =
      ⟨stdHost,
       { bigState with isSaving := false,
                       error := some (tooLargeMsg
                         (checkPayloadSize (buildMetadata 0 bigState none)).size
                         (checkPayloadSize (buildMetadata 0 bigState none)).maxSize) },
       [], false⟩ :=
  ⟨bigState_meta_invalid,
   saveMetadata_rejects_oversized 0 stdHost bigState stdItem none rfl rfl
     bigState_meta_invalid⟩

/-- Counterexample to C4: the oversized record measures 6620 bytes
(above the 6144 ceiling), the write is rejected — but the error
message is "Data too large (6KB / 6KB). Please reduce content.": it
contains neither the measured size 6620 nor the ceiling 6144, only the
rounded kilobyte figures, so the message does not include the measured
size or the ceiling. -/
theorem payload_error_lacks_measured_size_cex :
    MAX_PAYLOAD_SIZE < (checkPayloadSize (buildMetadata 0 bigState none)).size ∧
    (saveMetadata 0 stdHost bigState (some stdItem) none).state.error
      = some (tooLargeMsg (checkPayloadSize (buildMetadata 0 bigState none)).size
          MAX_PAYLOAD_SIZE) ∧
    (saveMetadata 0 stdHost bigState (some stdItem) none).writes = [] ∧
    strContains
      (tooLargeMsg (checkPayloadSize (buildMetadata 0 bigState none)).size MAX_PAYLOAD_SIZE)
      (toString (checkPayloadSize (buildMetadata 0 bigState none)).size) = false ∧
    strContains
      (tooLargeMsg (checkPayloadSize (buildMetadata 0 bigState none)).size MAX_PAYLOAD_SIZE)
      (toString MAX_PAYLOAD_SIZE) = false := by
  have hsave := saveMetadata_too_large_drops 0 stdHost bigState stdItem none rfl rfl
    bigState_meta_invalid
  refine ⟨?_, ?_, ?_, ?_, ?_⟩
  · rw [bigState_meta_size]; decide
  · rw [hsave]; simp only [checkPayloadSize]
  · rw [hsave]
  · rw [bigState_meta_size]; decide
  · rw [bigState_meta_size]; decide

end Annotate
